import Mathlib

/-!
Verification of the FinApp ledger-analytics layer (the dashboard's
client-side aggregation, duplicate-detection and data-validation code)
against its natural-language specification.

The embedding mirrors the TypeScript source of the dashboard view.
JavaScript `number` values are modelled as rationals together with an
explicit NaN constructor; a transaction's `amount` field may also hold a
non-number value (e.g. a string that failed coercion upstream), modelled
by the `str` constructor.  Dates travel as ISO strings, exactly as they
reach the dashboard from the API.
-/

namespace FinApp

/-- A JavaScript value sitting in a transaction's `amount` field:
either a finite number, the number `NaN`, or a non-number value
(the source guards every use with `typeof t.amount === 'number'`). -/
inductive Amount
  | num (q : ℚ)
  | nan
  | str (s : String)
deriving DecidableEq, Repr

namespace Amount

/-- `typeof t.amount === 'number'` — true for finite numbers and for NaN. -/
def isNumber : Amount → Bool
  | num _ => true
  | nan => true
  | str _ => false

/-- JavaScript `isNaN` restricted to the guarded uses in the source
(it is only ever applied after a `typeof === 'number'` check). -/
def isNaNb : Amount → Bool
  | nan => true
  | _ => false

/-- `t.amount < 0`.  A comparison against NaN is false in JavaScript;
the source only compares after a `typeof` guard, so the `str` case is
unreachable there and modelled as false. -/
def lt0 : Amount → Bool
  | num q => decide (q < 0)
  | _ => false

/-- `t.amount > 0`, with the same NaN convention. -/
def gt0 : Amount → Bool
  | num q => decide (q > 0)
  | _ => false

/-- `t.amount === 0` after the source's numeric coercion. -/
def eq0 : Amount → Bool
  | num q => decide (q = 0)
  | _ => false

/-- The finite numeric value, used only under a guard that already
established the amount is a finite number; defaults to 0 elsewhere. -/
def val : Amount → ℚ
  | num q => q
  | _ => 0

/-- `typeof t.amount === 'number' ? t.amount : 0` — the coercion the
validation tab and the duplicate table apply before comparing. -/
def coerced : Amount → Amount
  | str _ => num 0
  | a => a

/-- `Math.abs(typeof t.amount === 'number' ? t.amount : 0)` as a rational;
NaN has no rational magnitude and is modelled as 0 only where the source
itself feeds the result into a numeric display slot. -/
def absOr0 : Amount → ℚ
  | num q => |q|
  | _ => 0

end Amount

/-- A transaction record as the dashboard receives it. -/
structure Transaction where
  transaction_id : String
  transaction_date : String
  description : String
  category : String
  account_id : String
  amount : Amount
deriving DecidableEq, Repr

/-- The totals bundle returned by `calculateTotals` in the dashboard. -/
structure Totals where
  spent : ℚ
  checkingOut : ℚ
  totalSpent : ℚ
  received : ℚ
  net : ℚ
  count : ℕ
deriving DecidableEq, Repr

/-- `calculateTotals` (Dashboard): four filtered reductions over the
transaction list.  `spent` is credit-card spending (negative amounts on
accounts other than `chk_main`), `checkingOut` the negative amounts on
`chk_main`, `totalSpent` all negative amounts, `received` the positive
amounts on `chk_main` only. -/
def calculateTotals (txns : List Transaction) : Totals :=
  let ccSpent := ((txns.filter (fun t =>
      t.amount.isNumber && t.amount.lt0 && !(t.account_id == "chk_main"))).map
      (fun t => |t.amount.val|)).sum
  let checkingOut := ((txns.filter (fun t =>
      t.amount.isNumber && t.amount.lt0 && (t.account_id == "chk_main"))).map
      (fun t => |t.amount.val|)).sum
  let totalSpent := ((txns.filter (fun t =>
      t.amount.isNumber && t.amount.lt0)).map
      (fun t => |t.amount.val|)).sum
  let received := ((txns.filter (fun t =>
      t.amount.isNumber && t.amount.gt0 && (t.account_id == "chk_main"))).map
      (fun t => t.amount.val)).sum
  { spent := ccSpent
    checkingOut := checkingOut
    totalSpent := totalSpent
    received := received
    net := received - totalSpent
    count := txns.length }

/-- The month-over-month change computed in the dashboard's metrics:
guarded by `lastMonth.spent > 0`, otherwise 0. -/
def momChange (thisSpent lastSpent : ℚ) : ℚ :=
  if lastSpent > 0 then (thisSpent - lastSpent) / lastSpent * 100 else 0

/-- The income total written as a sum of per-record contributions over the
whole list, the shape in which the specification states it. -/
def incomeContributionSum (txns : List Transaction) : ℚ :=
  (txns.map (fun t =>
    if t.amount.isNumber && t.amount.gt0 && (t.account_id == "chk_main")
    then t.amount.val else 0)).sum

/-- Data-validation tab, sign counts: the source computes
`const amount = typeof t.amount === 'number' ? t.amount : 0` and then
compares that coerced value, so a non-number amount is compared as 0. -/
def positiveCount (txns : List Transaction) : ℕ :=
  (txns.filter (fun t => t.amount.coerced.gt0)).length

/-- Count of records whose coerced amount is `< 0`. -/
def negativeCount (txns : List Transaction) : ℕ :=
  (txns.filter (fun t => t.amount.coerced.lt0)).length

/-- Count of records whose coerced amount is `=== 0`. -/
def zeroCount (txns : List Transaction) : ℕ :=
  (txns.filter (fun t => t.amount.coerced.eq0)).length

/-- `invalidAmounts`: records with `typeof t.amount !== 'number' || isNaN(t.amount)`. -/
def invalidAmountCount (txns : List Transaction) : ℕ :=
  (txns.filter (fun t => !t.amount.isNumber || t.amount.isNaNb)).length

/-- The date part of an ISO date-or-datetime string
(`dateStr.split('T')[0]`): the prefix before the first `T`. -/
def datePart (s : String) : String :=
  String.mk (s.toList.takeWhile (fun c => c != 'T'))

/-- Shape check for a `yyyy-MM-dd` date part: ten characters, digits with
dashes at positions 4 and 7.  A record failing it models the source's
unparseable-date case (`new Date(...)`/`parseISO` yielding an invalid
date, whose comparisons are all false). -/
def isIsoDatePart (s : String) : Bool :=
  let cs := s.toList
  cs.length == 10 &&
    (List.range 10).all (fun i =>
      if i == 4 || i == 7 then cs.getD i ' ' == '-' else (cs.getD i ' ').isDigit)

/-- Numeric value of a digit string. -/
def digitsVal (cs : List Char) : ℕ := cs.foldl (fun n c => 10 * n + (c.toNat - 48)) 0

/-- An order-preserving code for a parsed calendar date (the engine only
ever compares dates, so any order-embedding is a faithful model of the
`Date` order). -/
def dateCode (s : String) : Option ℕ :=
  let d := datePart s
  if isIsoDatePart d then
    let cs := d.toList
    some (512 * digitsVal (cs.take 4)
      + 32 * digitsVal ((cs.drop 5).take 2)
      + digitsVal ((cs.drop 8).take 2))
  else none

/-- `getTransactionsInRange` (Dashboard metrics): keep the records whose
parsed date lies in the inclusive range; a record whose date does not
resolve is dropped (the source's try/catch returns false for it). -/
def getTransactionsInRange (startC endC : ℕ) (txns : List Transaction) :
    List Transaction :=
  txns.filter (fun t =>
    match dateCode t.transaction_date with
    | none => false
    | some d => decide (startC ≤ d) && decide (d ≤ endC))

/-- `t.category || 'Uncategorized'` (JavaScript falsiness of the absent /
empty label modelled by the empty string). -/
def categoryOf (t : Transaction) : String :=
  if t.category == "" then "Uncategorized" else t.category

/-- `t.account_id || 'Unknown'`. -/
def accountOf (t : Transaction) : String :=
  if t.account_id == "" then "Unknown" else t.account_id

/-- First-occurrence enumeration order of the string keys accumulated into
a JavaScript object (the dashboard's keys all contain non-digit characters,
so object enumeration is insertion order). -/
def keysInOrder (keys : List String) : List String :=
  keys.foldl (fun acc k => if k ∈ acc then acc else acc ++ [k]) []

/-- The records feeding every spending breakdown:
`t && typeof t.amount === 'number' && t.amount < 0`. -/
def negativeNumeric (txns : List Transaction) : List Transaction :=
  txns.filter (fun t => t.amount.isNumber && t.amount.lt0)

/-- `categorySpending`: the reduce-into-object accumulation of
`Math.abs(t.amount)` per category, rendered as an association list in
key-insertion order. -/
def categorySpending (txns : List Transaction) : List (String × ℚ) :=
  let neg := negativeNumeric txns
  (keysInOrder (neg.map categoryOf)).map (fun c =>
    (c, ((neg.filter (fun t => categoryOf t == c)).map (fun t => |t.amount.val|)).sum))

/-- `accountSpending`: the same accumulation keyed by account. -/
def accountSpending (txns : List Transaction) : List (String × ℚ) :=
  let neg := negativeNumeric txns
  (keysInOrder (neg.map accountOf)).map (fun a =>
    (a, ((neg.filter (fun t => accountOf t == a)).map (fun t => |t.amount.val|)).sum))

/-- `format(date, 'yyyy-MM')` of a record's parsed date: the first seven
characters of the ISO date part. -/
def monthKeyOf (t : Transaction) : String := (datePart t.transaction_date).take 7

/-- `monthlySpending`: per-month accumulation of `Math.abs(t.amount)` over
negative numeric amounts; a record whose date fails to parse is skipped by
the source's try/catch. -/
def monthlySpending (txns : List Transaction) : List (String × ℚ) :=
  let neg := (negativeNumeric txns).filter
    (fun t => isIsoDatePart (datePart t.transaction_date))
  (keysInOrder (neg.map monthKeyOf)).map (fun m =>
    (m, ((neg.filter (fun t => monthKeyOf t == m)).map (fun t => |t.amount.val|)).sum))

/-- `format(parseISO(month-01), 'MMM yyyy')`: the month label shown on the
monthly chart. -/
def monthAbbrev : String → String
  | "01" => "Jan" | "02" => "Feb" | "03" => "Mar" | "04" => "Apr"
  | "05" => "May" | "06" => "Jun" | "07" => "Jul" | "08" => "Aug"
  | "09" => "Sep" | "10" => "Oct" | "11" => "Nov" | "12" => "Dec"
  | _ => "Invalid"

/-- Label of a `yyyy-MM` key as `MMM yyyy`. -/
def monthLabel (m : String) : String :=
  monthAbbrev ((m.drop 5).take 2) ++ " " ++ m.take 4

/-- `monthlyData`: one row per month of the requested window (the source
iterates the last twelve months, passed here as the `months` argument),
with `monthlySpending[month] || 0` as the amount. -/
def monthlyData (months : List String) (txns : List Transaction) :
    List (String × ℚ) :=
  months.map (fun m => (monthLabel m, (((monthlySpending txns).lookup m).getD 0)))

/-- Decimal digits of a natural number (fuel-structural so that concrete
keys evaluate inside the kernel). -/
def natDigitsAux : ℕ → ℕ → List Char
  | 0, _ => []
  | _ + 1, 0 => []
  | fuel + 1, n => natDigitsAux fuel (n / 10) ++ [Char.ofNat (48 + n % 10)]

/-- Decimal rendering of a natural number. -/
def natToString (n : ℕ) : String :=
  if n = 0 then "0" else String.mk (natDigitsAux (n + 1) n)

/-- Decimal rendering of an integer. -/
def intToString : ℤ → String
  | Int.ofNat n => natToString n
  | Int.negSucc n => "-" ++ natToString (n + 1)

/-- The string a finite number contributes to a template literal: a
canonical rendering of the rational.  Like JavaScript's number-to-string,
it is injective on the model's numbers; integers print without a
fractional part, and a non-integer prints its reduced fraction (standing
in for JavaScript's decimal rendering, which is likewise injective on the
finite doubles). -/
def ratKeyString (q : ℚ) : String :=
  if q.den = 1 then intToString q.num
  else intToString q.num ++ "/" ++ natToString q.den

/-- `${t.amount}` inside the composite key template literal. -/
def Amount.keyString : Amount → String
  | Amount.num q => ratKeyString q
  | Amount.nan => "NaN"
  | Amount.str s => s

/-- The duplicate detector's composite grouping key:
`${dateStr}|${t.description}|${t.amount}|${t.account_id}` with `dateStr`
the date part of the record's date string. -/
def txnKey (t : Transaction) : String :=
  datePart t.transaction_date ++ "|" ++ t.description ++ "|"
    ++ t.amount.keyString ++ "|" ++ t.account_id

/-- The `txnKeys` accumulation object: one entry per distinct key in
first-occurrence order, carrying the records with that key in input
order. -/
def txnKeysEntries (txns : List Transaction) :
    List (String × List Transaction) :=
  (keysInOrder (txns.map txnKey)).map
    (fun k => (k, txns.filter (fun t => txnKey t == k)))

/-- `potentialDuplicateGroups`: the entries whose group has more than one
record. -/
def potentialDuplicateGroups (txns : List Transaction) :
    List (String × List Transaction) :=
  (txnKeysEntries txns).filter (fun e => 1 < e.2.length)

/-- Stable ordered insertion: the new element goes in front of the first
element it compares `le` to, so elements that tie keep their original
relative order. -/
def insertLe {α : Type} (le : α → α → Bool) (a : α) : List α → List α
  | [] => [a]
  | b :: l => if le a b then a :: b :: l else b :: insertLe le a l

/-- A stable sort (insertion sort), modelling JavaScript's
`Array.prototype.sort`, which is required to be stable. -/
def stableSortBy {α : Type} (le : α → α → Bool) (l : List α) : List α :=
  l.foldr (insertLe le) []

/-- Placeholder for `head` of a group; groups are nonempty by
construction, so it is never the value actually read. -/
def dummyTxn : Transaction := Transaction.mk "" "" "" "" "" (Amount.num 0)

/-- The duplicate table's sort score: `count * Math.abs(first amount)`
with the source's `typeof === 'number' ? ... : 0` coercion.  (A NaN first
amount would make the JavaScript comparator return NaN, which leaves the
order implementation-defined; the model scores it 0.) -/
def groupScore (e : String × List Transaction) : ℚ :=
  (e.2.length : ℚ) * (e.2.headD dummyTxn).amount.coerced.absOr0

/-- The group list as the table emits it: sorted by descending score,
ties keeping first-occurrence order (stable sort). -/
def sortedDuplicateGroups (txns : List Transaction) :
    List (String × List Transaction) :=
  stableSortBy (fun a b => decide (groupScore b ≤ groupScore a))
    (potentialDuplicateGroups txns)

/-- The emitted table rows (top ten groups): key, group size, and the
"extra" dollar impact `Math.abs(first.amount) * (count - 1)`. -/
def duplicateRows (txns : List Transaction) : List (String × ℕ × ℚ) :=
  ((sortedDuplicateGroups txns).take 10).map (fun e =>
    (e.1, e.2.length,
      (e.2.headD dummyTxn).amount.coerced.absOr0 * ((e.2.length : ℚ) - 1)))

/-- Fixture: a record whose description contains the key delimiter. -/
def collideRec1 : Transaction :=
  Transaction.mk "d1" "2024-01-05" "a|1" "" "c" (Amount.num 1)

/-- Fixture: a record with a different description, amount position and
account that assembles to the same joined key as `collideRec1`. -/
def collideRec2 : Transaction :=
  Transaction.mk "d2" "2024-01-05" "a" "" "1|c" (Amount.num 1)

/-- Fixture: first of two identical −50 charges (specification
scenario 1). -/
def dupRecS1 : Transaction :=
  Transaction.mk "s1" "2024-01-05" "COFFEE SHOP" "" "cc_x" (Amount.num (-50))

/-- Fixture: second of two identical −50 charges, distinct id. -/
def dupRecS2 : Transaction :=
  Transaction.mk "s2" "2024-01-05" "COFFEE SHOP" "" "cc_x" (Amount.num (-50))

/-- Fixtures for the order counterexample: two duplicate pairs with equal
sort scores, distinguished only by description. -/
def dupRecA1 : Transaction :=
  Transaction.mk "t1" "2024-01-05" "alpha" "" "cc_x" (Amount.num (-50))

/-- Second member of the `alpha` pair. -/
def dupRecA2 : Transaction :=
  Transaction.mk "t2" "2024-01-05" "alpha" "" "cc_x" (Amount.num (-50))

/-- First member of the `beta` pair. -/
def dupRecB1 : Transaction :=
  Transaction.mk "t3" "2024-01-05" "beta" "" "cc_x" (Amount.num (-50))

/-- Second member of the `beta` pair. -/
def dupRecB2 : Transaction :=
  Transaction.mk "t4" "2024-01-05" "beta" "" "cc_x" (Amount.num (-50))

/-- Modelled from the spec: the correlator (`build_correlated_payments` in
the API's analytics module `metrics.py`) is referenced by the repository's
documentation and task list but its source file is not among the provided
sources, so the matcher is modelled from §4.5 of the specification.  A flow
record carries an id, a day number (calendar date) and a signed amount. -/
structure FlowRecord where
  rid : String
  day : ℤ
  amount : ℚ
deriving DecidableEq, Repr

/-- Modelled from the spec: candidate preference — strictly smaller
`|dayDelta|` first, remaining ties broken by earlier inflow date.  The
selection fold keeps the earlier-listed candidate on full ties. -/
def candLt (o : FlowRecord) (c b : ℕ × FlowRecord) : Bool :=
  decide (|c.2.day - o.day| < |b.2.day - o.day|)
    || (decide (|c.2.day - o.day| = |b.2.day - o.day|)
        && decide (c.2.day < b.2.day))

/-- Modelled from the spec: pick the preferred candidate from a list. -/
def pickBest (o : FlowRecord) (cands : List (ℕ × FlowRecord)) :
    Option (ℕ × FlowRecord) :=
  cands.foldl (fun best c =>
    match best with
    | none => some c
    | some b => if candLt o c b then some c else some b) none

/-- Modelled from the spec: the candidates for an outflow — inflows not
yet consumed (tracked by position), with identical absolute amount, whose
date lies within the inclusive day tolerance. -/
def candidatesFor (inflows : List FlowRecord) (used : List ℕ) (tol : ℤ)
    (o : FlowRecord) : List (ℕ × FlowRecord) :=
  inflows.enum.filter (fun c =>
    !(used.contains c.1) && decide (|c.2.amount| = |o.amount|)
      && decide (|c.2.day - o.day| ≤ tol))

/-- Modelled from the spec: the greedy matching pass over the outflows in
order.  Each match consumes its inflow; an outflow with no candidate is
skipped.  Result entries are `(outflow, inflow position, inflow,
dayDelta)`. -/
def correlateGo (inflows : List FlowRecord) (tol : ℤ) :
    List FlowRecord → List ℕ → List (FlowRecord × ℕ × FlowRecord × ℤ)
  | [], _ => []
  | o :: os, used =>
    match pickBest o (candidatesFor inflows used tol o) with
    | none => correlateGo inflows tol os used
    | some c =>
        (o, c.1, c.2, c.2.day - o.day) :: correlateGo inflows tol os (c.1 :: used)

/-- Modelled from the spec:
`correlate(outflows, inflows, { toleranceDays })`. -/
def correlate (outflows inflows : List FlowRecord) (tol : ℤ) :
    List (FlowRecord × ℕ × FlowRecord × ℤ) :=
  correlateGo inflows tol outflows []

section Helpers

lemma sum_map_filter_eq_sum_ite (l : List Transaction)
    (p : Transaction → Bool) (f : Transaction → ℚ) :
    ((l.filter p).map f).sum = (l.map (fun t => if p t then f t else 0)).sum := by
  induction l with
  | nil => simp
  | cons a l ih =>
    by_cases h : p a <;> simp [List.filter_cons, h, ih]

lemma sum_map_filter_split (l : List Transaction)
    (p q : Transaction → Bool) (f : Transaction → ℚ) :
    ((l.filter (fun t => p t && !(q t))).map f).sum
      + ((l.filter (fun t => p t && q t)).map f).sum
      = ((l.filter p).map f).sum := by
  induction l with
  | nil => simp
  | cons a l ih =>
    by_cases hp : p a <;> by_cases hq : q a <;>
      simp [List.filter_cons, hp, hq, ← ih] <;> ring

lemma foldl_keys_mem {ks acc : List String} {k : String}
    (h : k ∈ ks.foldl (fun acc k => if k ∈ acc then acc else acc ++ [k]) acc) :
    k ∈ acc ∨ k ∈ ks := by
  induction ks generalizing acc with
  | nil => exact Or.inl h
  | cons a ks ih =>
    rcases ih h with h' | h'
    · by_cases ha : a ∈ acc
      · simp only [ha, if_true] at h'
        exact Or.inl h'
      · simp only [ha, if_false, List.mem_append, List.mem_singleton] at h'
        rcases h' with h' | h'
        · exact Or.inl h'
        · right
          simp [h']
    · right
      exact List.mem_cons_of_mem _ h'

lemma keysInOrder_subset {ks : List String} {k : String}
    (h : k ∈ keysInOrder ks) : k ∈ ks := by
  rcases foldl_keys_mem h with h' | h'
  · simp at h'
  · exact h'

lemma mem_foldl_keys_of_mem_acc {ks acc : List String} {k : String}
    (h : k ∈ acc) :
    k ∈ ks.foldl (fun acc k => if k ∈ acc then acc else acc ++ [k]) acc := by
  induction ks generalizing acc with
  | nil => exact h
  | cons a ks ih =>
    refine ih ?_
    by_cases ha : a ∈ acc <;> simp [ha, h]

lemma mem_foldl_keys_of_mem {ks acc : List String} {k : String}
    (h : k ∈ ks) :
    k ∈ ks.foldl (fun acc k => if k ∈ acc then acc else acc ++ [k]) acc := by
  induction ks generalizing acc with
  | nil => simp at h
  | cons a ks ih =>
    rw [List.foldl_cons]
    rcases List.mem_cons.mp h with rfl | h'
    · refine @mem_foldl_keys_of_mem_acc ks (if k ∈ acc then acc else acc ++ [k]) k ?_
      by_cases ha : k ∈ acc
      · rw [if_pos ha]; exact ha
      · rw [if_neg ha]; simp
    · exact ih h'

lemma keysInOrder_mem_iff {ks : List String} {k : String} :
    k ∈ keysInOrder ks ↔ k ∈ ks :=
  ⟨keysInOrder_subset, mem_foldl_keys_of_mem⟩

lemma mem_insertLe {α : Type} {le : α → α → Bool} {a x : α} {l : List α} :
    x ∈ insertLe le a l ↔ x = a ∨ x ∈ l := by
  induction l with
  | nil => simp [insertLe]
  | cons b l ih =>
    by_cases h : le a b
    · simp [insertLe, h]
    · simp only [insertLe, h]
      simp [ih, or_left_comm]

lemma mem_stableSortBy {α : Type} {le : α → α → Bool} {x : α} {l : List α} :
    x ∈ stableSortBy le l ↔ x ∈ l := by
  induction l with
  | nil => simp [stableSortBy]
  | cons a l ih =>
    show x ∈ insertLe le a (stableSortBy le l) ↔ _
    simp [mem_insertLe, ih]

lemma mem_fst_potentialDuplicateGroups {l : List Transaction} {k : String} :
    k ∈ (potentialDuplicateGroups l).map Prod.fst
      ↔ (∃ t ∈ l, txnKey t = k)
        ∧ 1 < (l.filter (fun t => txnKey t == k)).length := by
  simp only [potentialDuplicateGroups, txnKeysEntries, List.map_map,
    List.mem_map, List.mem_filter]
  constructor
  · rintro ⟨e, ⟨⟨k', hk', rfl⟩, hlen⟩, rfl⟩
    have hk'' := keysInOrder_mem_iff.mp hk'
    exact ⟨List.mem_map.mp hk'', by simpa using hlen⟩
  · rintro ⟨hk, hlen⟩
    refine ⟨(k, l.filter (fun t => txnKey t == k)),
      ⟨⟨k, keysInOrder_mem_iff.mpr (List.mem_map.mpr hk), rfl⟩,
        by simpa using hlen⟩, rfl⟩

lemma pickBest_foldl_mem {o : FlowRecord} {cands : List (ℕ × FlowRecord)}
    {b : Option (ℕ × FlowRecord)} {c : ℕ × FlowRecord}
    (h : cands.foldl (fun best c =>
      match best with
      | none => some c
      | some b => if candLt o c b then some c else some b) b = some c) :
    b = some c ∨ c ∈ cands := by
  induction cands generalizing b with
  | nil => exact Or.inl h
  | cons a cands ih =>
    rcases ih h with h' | h'
    · rcases b with _ | b'
      · simp only [Option.some.injEq] at h'
        exact Or.inr (by simp [← h'])
      · by_cases hlt : candLt o a b'
        · simp only [hlt, if_true, Option.some.injEq] at h'
          exact Or.inr (by simp [← h'])
        · simp only [hlt, if_false] at h'
          exact Or.inl h'
    · exact Or.inr (List.mem_cons_of_mem _ h')

lemma pickBest_mem {o : FlowRecord} {cands : List (ℕ × FlowRecord)}
    {c : ℕ × FlowRecord} (h : pickBest o cands = some c) : c ∈ cands := by
  rcases pickBest_foldl_mem h with h' | h'
  · simp at h'
  · exact h'

lemma candidatesFor_spec {inflows : List FlowRecord} {used : List ℕ}
    {tol : ℤ} {o : FlowRecord} {c : ℕ × FlowRecord}
    (h : c ∈ candidatesFor inflows used tol o) :
    c.1 ∉ used ∧ c.2 ∈ inflows ∧ |c.2.amount| = |o.amount|
      ∧ |c.2.day - o.day| ≤ tol := by
  rcases List.mem_filter.mp h with ⟨hmem, hcond⟩
  simp only [Bool.and_eq_true, Bool.not_eq_true', decide_eq_true_eq] at hcond
  have hin : c.2 ∈ inflows := by
    have hget := List.mem_enum_iff_getElem?.mp hmem
    exact List.getElem?_mem hget
  refine ⟨?_, hin, hcond.1.2, hcond.2⟩
  simpa using hcond.1.1

lemma correlateGo_indices (inflows : List FlowRecord) (tol : ℤ) :
    ∀ (os : List FlowRecord) (used : List ℕ),
      (∀ j ∈ (correlateGo inflows tol os used).map (fun p => p.2.1), j ∉ used)
      ∧ ((correlateGo inflows tol os used).map (fun p => p.2.1)).Nodup := by
  intro os
  induction os with
  | nil => intro used; simp [correlateGo]
  | cons o os ih =>
    intro used
    rcases hpb : pickBest o (candidatesFor inflows used tol o) with _ | c
    · simpa [correlateGo, hpb] using ih used
    · have hc := candidatesFor_spec (pickBest_mem hpb)
      have ihc := ih (c.1 :: used)
      constructor
      · intro j hj
        simp only [correlateGo, hpb, List.map_cons, List.mem_cons] at hj
        rcases hj with rfl | hj
        · exact hc.1
        · intro hju
          exact (ihc.1 j hj) (List.mem_cons_of_mem _ hju)
      · simp only [correlateGo, hpb, List.map_cons, List.nodup_cons]
        refine ⟨fun hmem => ?_, ihc.2⟩
        exact (ihc.1 c.1 hmem) (List.mem_cons_self _ _)

lemma correlateGo_sound (inflows : List FlowRecord) (tol : ℤ) :
    ∀ (os : List FlowRecord) (used : List ℕ),
      ∀ p ∈ correlateGo inflows tol os used,
        p.1 ∈ os ∧ p.2.2.1 ∈ inflows
          ∧ |p.2.2.1.amount| = |p.1.amount|
          ∧ |p.2.2.1.day - p.1.day| ≤ tol
          ∧ p.2.2.2 = p.2.2.1.day - p.1.day := by
  intro os
  induction os with
  | nil => intro used p hp; simp [correlateGo] at hp
  | cons o os ih =>
    intro used p hp
    rcases hpb : pickBest o (candidatesFor inflows used tol o) with _ | c
    · rw [correlateGo, hpb] at hp
      have := ih used p hp
      exact ⟨List.mem_cons_of_mem _ this.1, this.2⟩
    · rw [correlateGo, hpb] at hp
      rcases List.mem_cons.mp hp with rfl | hp'
      · have hc := candidatesFor_spec (pickBest_mem hpb)
        exact ⟨List.mem_cons_self _ _, hc.2.1, hc.2.2.1, hc.2.2.2, rfl⟩
      · have := ih (c.1 :: used) p hp'
        exact ⟨List.mem_cons_of_mem _ this.1, this.2⟩

lemma calculateTotals_spent_nonneg (txns : List Transaction) :
    0 ≤ (calculateTotals txns).spent := by
  refine List.sum_nonneg ?_
  intro x hx
  rcases List.mem_map.mp hx with ⟨t, _, rfl⟩
  exact abs_nonneg _

end Helpers

/-- C1: the income metric (`received`) equals the sum of positive amounts
restricted to the designated income account `chk_main`, and appending a
positive-amount transaction on any other account leaves it unchanged. -/
theorem received_is_income_account_only :
    (∀ txns : List Transaction,
      (calculateTotals txns).received = incomeContributionSum txns)
    ∧
    (∀ (txns : List Transaction) (t : Transaction),
      t.account_id ≠ "chk_main" →
      (calculateTotals (txns ++ [t])).received = (calculateTotals txns).received) := by
  constructor
  · intro txns
    simpa [calculateTotals, incomeContributionSum] using
      sum_map_filter_eq_sum_ite txns
        (fun t => t.amount.isNumber && t.amount.gt0 && (t.account_id == "chk_main"))
        (fun t => t.amount.val)
  · intro txns t h
    have hb : (t.account_id == "chk_main") = false := by
      simpa [beq_eq_false_iff_ne] using h
    simp [calculateTotals, List.filter_append, List.filter_cons, hb]

/-- Witness for C1 at the specification's concrete scenario: a 1000 deposit
on `chk_main` plus a 500 deposit on `savings`; the income metric stays at
the `chk_main` contribution. -/
theorem received_is_income_account_only_witness :
    (calculateTotals
      ([⟨"t1", "2024-03-01", "payroll", "", "chk_main", Amount.num 1000⟩] ++
       [⟨"t2", "2024-03-02", "transfer", "", "savings", Amount.num 500⟩])).received
      = (calculateTotals
          [⟨"t1", "2024-03-01", "payroll", "", "chk_main", Amount.num 1000⟩]).received :=
  received_is_income_account_only.2
    [⟨"t1", "2024-03-01", "payroll", "", "chk_main", Amount.num 1000⟩]
    ⟨"t2", "2024-03-02", "transfer", "", "savings", Amount.num 500⟩
    (by decide)

/-- C2: the month-over-month change percent follows the formula
`(current - previous) / previous * 100` and is 0 (a neutral value, not an
error value) whenever the previous-period spending total is 0. -/
theorem momChange_formula_and_neutral_baseline :
    ∀ thisTxns lastTxns : List Transaction,
      ((calculateTotals lastTxns).spent = 0 →
        momChange (calculateTotals thisTxns).spent (calculateTotals lastTxns).spent = 0)
      ∧
      ((calculateTotals lastTxns).spent ≠ 0 →
        momChange (calculateTotals thisTxns).spent (calculateTotals lastTxns).spent
          = ((calculateTotals thisTxns).spent - (calculateTotals lastTxns).spent)
              / (calculateTotals lastTxns).spent * 100) := by
  intro thisTxns lastTxns
  constructor
  · intro h0
    simp [momChange, h0]
  · intro hne
    have hpos : 0 < (calculateTotals lastTxns).spent :=
      lt_of_le_of_ne (calculateTotals_spent_nonneg lastTxns) (Ne.symm hne)
    simp [momChange, hpos]

/-- Witness for C2: previous period with a single 200 credit-card charge,
current period with a single 300 charge → +50%. -/
theorem momChange_formula_witness :
    momChange
      (calculateTotals [⟨"a", "2024-02-03", "shop", "", "cc_x", Amount.num (-300)⟩]).spent
      (calculateTotals [⟨"b", "2024-01-03", "shop", "", "cc_x", Amount.num (-200)⟩]).spent
      = ((calculateTotals [⟨"a", "2024-02-03", "shop", "", "cc_x", Amount.num (-300)⟩]).spent
          - (calculateTotals [⟨"b", "2024-01-03", "shop", "", "cc_x", Amount.num (-200)⟩]).spent)
            / (calculateTotals [⟨"b", "2024-01-03", "shop", "", "cc_x", Amount.num (-200)⟩]).spent
            * 100 :=
  (momChange_formula_and_neutral_baseline
      [⟨"a", "2024-02-03", "shop", "", "cc_x", Amount.num (-300)⟩]
      [⟨"b", "2024-01-03", "shop", "", "cc_x", Amount.num (-200)⟩]).2
    (by norm_num [calculateTotals, List.filter_cons, Amount.val, Amount.lt0,
      Amount.isNumber, show ("cc_x" = "chk_main") ↔ False by simp])

/-- C10: credit-card spending (negative amounts on non-`chk_main` accounts)
plus checking outflows (negative amounts on `chk_main`) exactly partition
the total-spending metric (all negative amounts). -/
theorem spending_totals_partition (txns : List Transaction)
    (h : ∀ t ∈ txns, t.amount.isNumber = true) :
    (calculateTotals txns).spent + (calculateTotals txns).checkingOut
      = (calculateTotals txns).totalSpent := by
  simpa [calculateTotals, Bool.and_assoc] using
    sum_map_filter_split txns
      (fun t => t.amount.isNumber && t.amount.lt0)
      (fun t => t.account_id == "chk_main")
      (fun t => |t.amount.val|)

lemma sign_count_contribution (a : Transaction) :
    ((if a.amount.coerced.lt0 then 1 else 0) + (if a.amount.coerced.gt0 then 1 else 0)
      + (if a.amount.coerced.eq0 then 1 else 0)
      + (if (!a.amount.isNumber || a.amount.isNaNb) then 1 else 0) : ℕ)
      = 1 + (if !a.amount.isNumber then 1 else 0) := by
  rcases ha : a.amount with q | _ | s
  · rcases lt_trichotomy q 0 with h | h | h
    · have h1 : ¬ (0 : ℚ) < q := not_lt.mpr h.le
      simp [ha, Amount.coerced, Amount.lt0, Amount.gt0, Amount.eq0,
        Amount.isNumber, Amount.isNaNb, h, h1, h.ne]
    · simp [ha, h, Amount.coerced, Amount.lt0, Amount.gt0, Amount.eq0,
        Amount.isNumber, Amount.isNaNb]
    · have h1 : ¬ q < (0 : ℚ) := not_lt.mpr h.le
      simp [ha, Amount.coerced, Amount.lt0, Amount.gt0, Amount.eq0,
        Amount.isNumber, Amount.isNaNb, h, h1, h.ne.symm]
  · simp [ha, Amount.coerced, Amount.lt0, Amount.gt0, Amount.eq0,
      Amount.isNumber, Amount.isNaNb]
  · simp [ha, Amount.coerced, Amount.lt0, Amount.gt0, Amount.eq0,
      Amount.isNumber, Amount.isNaNb]

/-- C3 counterexample: a single record whose amount is the string
`"not-a-number"` is counted once as zero (the validation tab coerces a
non-number amount to 0 before the sign comparison) and once as invalid,
so the four sign-partition counts sum to 2 over a 1-record set. -/
theorem sign_partition_counts_counterexample :
    negativeCount [Transaction.mk "x1" "2024-01-01" "bad row" "" "chk_main" (Amount.str "not-a-number")]
      + positiveCount [Transaction.mk "x1" "2024-01-01" "bad row" "" "chk_main" (Amount.str "not-a-number")]
      + zeroCount [Transaction.mk "x1" "2024-01-01" "bad row" "" "chk_main" (Amount.str "not-a-number")]
      + invalidAmountCount [Transaction.mk "x1" "2024-01-01" "bad row" "" "chk_main" (Amount.str "not-a-number")]
      = 2
    ∧ [Transaction.mk "x1" "2024-01-01" "bad row" "" "chk_main" (Amount.str "not-a-number")].length = 1 := by
  constructor
  · simp [negativeCount, positiveCount, zeroCount, invalidAmountCount,
      List.filter_cons, Amount.coerced, Amount.lt0, Amount.gt0, Amount.eq0,
      Amount.isNumber, Amount.isNaNb]
  · rfl

/-- C3 amended: the four sign-partition counts sum to the record count plus
the number of records whose amount is not of number type at all (each such
record is counted both as zero and as invalid); in particular the exact
partition holds whenever every amount is of number type (NaN included). -/
theorem sign_partition_counts_amended (txns : List Transaction) :
    negativeCount txns + positiveCount txns + zeroCount txns + invalidAmountCount txns
      = txns.length + (txns.filter (fun t => !t.amount.isNumber)).length := by
  induction txns with
  | nil => simp [negativeCount, positiveCount, zeroCount, invalidAmountCount]
  | cons a l ih =>
    have hc := sign_count_contribution a
    simp only [negativeCount, positiveCount, zeroCount, invalidAmountCount,
      ← List.countP_eq_length_filter, List.countP_cons, List.length_cons] at *
    omega

/-- Witness for C10 on a list mixing a credit-card charge, a checking
outflow and a deposit. -/
theorem spending_totals_partition_witness :
    (calculateTotals
        [⟨"a", "2024-01-01", "grocery", "", "cc_x", Amount.num (-40)⟩,
         ⟨"b", "2024-01-02", "rent", "", "chk_main", Amount.num (-1200)⟩,
         ⟨"c", "2024-01-03", "payroll", "", "chk_main", Amount.num 2000⟩]).spent
      + (calculateTotals
        [⟨"a", "2024-01-01", "grocery", "", "cc_x", Amount.num (-40)⟩,
         ⟨"b", "2024-01-02", "rent", "", "chk_main", Amount.num (-1200)⟩,
         ⟨"c", "2024-01-03", "payroll", "", "chk_main", Amount.num 2000⟩]).checkingOut
      = (calculateTotals
        [⟨"a", "2024-01-01", "grocery", "", "cc_x", Amount.num (-40)⟩,
         ⟨"b", "2024-01-02", "rent", "", "chk_main", Amount.num (-1200)⟩,
         ⟨"c", "2024-01-03", "payroll", "", "chk_main", Amount.num 2000⟩]).totalSpent :=
  spending_totals_partition _ (by decide)

/-- C7: the range filter is idempotent — applying it twice returns exactly
the once-filtered list — and stable: its output is a sublist of the input,
so kept records appear in their input order. -/
theorem range_filter_idempotent_and_stable :
    ∀ (startC endC : ℕ) (txns : List Transaction),
      getTransactionsInRange startC endC (getTransactionsInRange startC endC txns)
        = getTransactionsInRange startC endC txns
      ∧ (getTransactionsInRange startC endC txns).Sublist txns := by
  intro startC endC txns
  constructor
  · simp only [getTransactionsInRange, List.filter_filter]
    congr 1
    funext t
    cases dateCode t.transaction_date <;> simp
  · exact List.filter_sublist txns

/-- C6 counterexample: on an empty record set the monthly breakdown still
emits one row per month of the requested window, as a zero-amount row —
a group with zero member records is shown, not omitted. -/
theorem monthly_breakdown_zero_row_counterexample :
    monthlyData ["2024-01"] [] = [("Jan 2024", 0)] := by
  rfl

/-- C6 amended: the by-category and by-account breakdowns only emit groups
with at least one member record, while the monthly breakdown emits exactly
one row for every month of the requested last-twelve-months window,
whether or not any record falls in it (empty months appear as zero rows). -/
theorem breakdown_group_membership :
    ∀ (txns : List Transaction) (months : List String),
      (∀ e ∈ categorySpending txns, ∃ t ∈ txns,
        (t.amount.isNumber && t.amount.lt0) = true ∧ categoryOf t = e.1)
      ∧ (∀ e ∈ accountSpending txns, ∃ t ∈ txns,
        (t.amount.isNumber && t.amount.lt0) = true ∧ accountOf t = e.1)
      ∧ (monthlyData months txns).length = months.length := by
  intro txns months
  refine ⟨?_, ?_, by simp [monthlyData]⟩
  · intro e he
    simp only [categorySpending] at he
    rcases List.mem_map.mp he with ⟨c, hc, rfl⟩
    have hc' : c ∈ (negativeNumeric txns).map categoryOf := keysInOrder_subset hc
    rcases List.mem_map.mp hc' with ⟨t, ht, rfl⟩
    have ht' := List.mem_filter.mp ht
    exact ⟨t, ht'.1, ht'.2, rfl⟩
  · intro e he
    simp only [accountSpending] at he
    rcases List.mem_map.mp he with ⟨a, ha, rfl⟩
    have ha' : a ∈ (negativeNumeric txns).map accountOf := keysInOrder_subset ha
    rcases List.mem_map.mp ha' with ⟨t, ht, rfl⟩
    have ht' := List.mem_filter.mp ht
    exact ⟨t, ht'.1, ht'.2, rfl⟩

/-- Witness for the C6 theorem: a single grocery charge yields a category
entry whose member is that record, and a two-month window yields two
monthly rows. -/
theorem breakdown_group_membership_witness :
    ∃ t ∈ [Transaction.mk "g1" "2024-01-03" "grocery" "Food" "cc_x" (Amount.num (-25))],
      (t.amount.isNumber && t.amount.lt0) = true ∧ categoryOf t = "Food" :=
  (breakdown_group_membership
      [Transaction.mk "g1" "2024-01-03" "grocery" "Food" "cc_x" (Amount.num (-25))]
      ["2024-01", "2024-02"]).1
    ("Food", 25)
    (by norm_num [categorySpending, negativeNumeric, keysInOrder,
      List.filter_cons, categoryOf, Amount.isNumber, Amount.lt0, Amount.val,
      show ("Food" = "") ↔ False by simp])

/-- C4 counterexample: the detector's key is the pipe-joined string
`date|description|amount|account`, not the composite quadruple — two
records that differ in description, amount placement and account assemble
the same joined string and are reported as one near-duplicate group of
size 2, although grouping by the composite key (calendar date,
description, amount, account_id) would give two singleton groups. -/
theorem near_duplicate_key_collision_counterexample :
    (potentialDuplicateGroups [collideRec1, collideRec2]).map (fun e => e.2.length) = [2]
    ∧ collideRec1.description ≠ collideRec2.description
    ∧ collideRec1.account_id ≠ collideRec2.account_id := by
  decide

/-- C4 amended: each emitted duplicate row comes from a joined-string key
group of size > 1 consisting of exactly the records with that key, and
reports the excess impact `Math.abs(first member's amount) * (size − 1)`;
whenever the group's members share the numeric amount `a` this equals
`|a| * (groupSize − 1)`, the specification's formula. -/
theorem duplicate_rows_excess_impact :
    ∀ (txns : List Transaction) (row : String × ℕ × ℚ),
      row ∈ duplicateRows txns →
      ∃ g : List Transaction,
        (row.1, g) ∈ potentialDuplicateGroups txns
        ∧ 1 < g.length
        ∧ g = txns.filter (fun t => txnKey t == row.1)
        ∧ row.2.1 = g.length
        ∧ row.2.2 = (g.headD dummyTxn).amount.coerced.absOr0 * ((g.length : ℚ) - 1)
        ∧ ∀ a : ℚ, (∀ t ∈ g, t.amount = Amount.num a) →
            row.2.2 = |a| * ((g.length : ℚ) - 1) := by
  intro txns row hrow
  simp only [duplicateRows, List.mem_map] at hrow
  rcases hrow with ⟨e, he, rfl⟩
  have he1 : e ∈ sortedDuplicateGroups txns := List.mem_of_mem_take he
  have he2 : e ∈ potentialDuplicateGroups txns := mem_stableSortBy.mp he1
  have he3 := List.mem_filter.mp he2
  have hlen : 1 < e.2.length := by simpa using he3.2
  rcases List.mem_map.mp he3.1 with ⟨k, _, hke⟩
  refine ⟨e.2, he2, hlen, ?_, rfl, rfl, ?_⟩
  · rw [← hke]
  · intro a ha
    rcases hg : e.2 with _ | ⟨hd, tl⟩
    · rw [hg] at hlen; simp at hlen
    · have hhd : hd ∈ e.2 := by rw [hg]; exact List.mem_cons_self hd tl
      have := ha hd hhd
      simp [hg, this, Amount.coerced, Amount.absOr0]

/-- Witness for C4's amended theorem at specification scenario 1: two
identical −50 charges on the same date and account form one group of
size 2 whose reported excess impact is 50. -/
theorem duplicate_rows_excess_impact_witness :
    ∃ g : List Transaction,
      (txnKey dupRecS1, g) ∈ potentialDuplicateGroups [dupRecS1, dupRecS2]
      ∧ 1 < g.length
      ∧ g = [dupRecS1, dupRecS2].filter (fun t => txnKey t == txnKey dupRecS1)
      ∧ 2 = g.length
      ∧ (50 : ℚ) = (g.headD dummyTxn).amount.coerced.absOr0 * ((g.length : ℚ) - 1)
      ∧ ∀ a : ℚ, (∀ t ∈ g, t.amount = Amount.num a) →
          (50 : ℚ) = |a| * ((g.length : ℚ) - 1) :=
  duplicate_rows_excess_impact [dupRecS1, dupRecS2] (txnKey dupRecS1, 2, 50)
    (by
      have hpg : potentialDuplicateGroups [dupRecS1, dupRecS2]
          = [(txnKey dupRecS1, [dupRecS1, dupRecS2])] := by decide
      have hrows : duplicateRows [dupRecS1, dupRecS2]
          = [(txnKey dupRecS1, 2,
              dupRecS1.amount.coerced.absOr0 * (((2 : ℕ) : ℚ) - 1))] := by
        simp only [duplicateRows, sortedDuplicateGroups]
        rw [hpg]
        rfl
      rw [hrows]
      norm_num [dupRecS1, Amount.coerced, Amount.absOr0])

/-- C5 counterexample: reordering the input reorders the emitted duplicate
groups.  Two duplicate pairs have equal sort scores (same size, same
absolute amount), so the stable sort keeps first-occurrence order, which
follows the input order: the permuted input yields the groups in the
opposite order. -/
theorem duplicate_detector_order_counterexample :
    ([dupRecA1, dupRecA2, dupRecB1, dupRecB2] : List Transaction).Perm
        [dupRecB1, dupRecB2, dupRecA1, dupRecA2]
    ∧ (sortedDuplicateGroups [dupRecA1, dupRecA2, dupRecB1, dupRecB2]).map Prod.fst
        ≠ (sortedDuplicateGroups [dupRecB1, dupRecB2, dupRecA1, dupRecA2]).map Prod.fst := by
  constructor
  · exact show ([dupRecA1, dupRecA2] ++ [dupRecB1, dupRecB2]).Perm
        ([dupRecB1, dupRecB2] ++ [dupRecA1, dupRecA2]) from List.perm_append_comm
  · have h1 : potentialDuplicateGroups [dupRecA1, dupRecA2, dupRecB1, dupRecB2]
        = [(txnKey dupRecA1, [dupRecA1, dupRecA2]),
           (txnKey dupRecB1, [dupRecB1, dupRecB2])] := by decide
    have h2 : potentialDuplicateGroups [dupRecB1, dupRecB2, dupRecA1, dupRecA2]
        = [(txnKey dupRecB1, [dupRecB1, dupRecB2]),
           (txnKey dupRecA1, [dupRecA1, dupRecA2])] := by decide
    have hsAB : groupScore (txnKey dupRecB1, [dupRecB1, dupRecB2])
        ≤ groupScore (txnKey dupRecA1, [dupRecA1, dupRecA2]) := by
      norm_num [groupScore, dupRecA1, dupRecA2, dupRecB1, dupRecB2,
        Amount.coerced, Amount.absOr0]
    have hsBA : groupScore (txnKey dupRecA1, [dupRecA1, dupRecA2])
        ≤ groupScore (txnKey dupRecB1, [dupRecB1, dupRecB2]) := by
      norm_num [groupScore, dupRecA1, dupRecA2, dupRecB1, dupRecB2,
        Amount.coerced, Amount.absOr0]
    have e1 : (sortedDuplicateGroups [dupRecA1, dupRecA2, dupRecB1, dupRecB2]).map Prod.fst
        = [txnKey dupRecA1, txnKey dupRecB1] := by
      simp [sortedDuplicateGroups, stableSortBy, insertLe, h1, hsAB]
    have e2 : (sortedDuplicateGroups [dupRecB1, dupRecB2, dupRecA1, dupRecA2]).map Prod.fst
        = [txnKey dupRecB1, txnKey dupRecA1] := by
      simp [sortedDuplicateGroups, stableSortBy, insertLe, h2, hsBA]
    rw [e1, e2]
    decide

/-- C5 amended: the content of the duplicate report is permutation
invariant — the same keys are flagged and each key's member multiset is
preserved — but the order in which groups are emitted (and the order of
members within a group) follows first-occurrence order in the input and
can change under permutation. -/
theorem duplicate_groups_content_perm_invariant :
    ∀ l1 l2 : List Transaction, l1.Perm l2 → ∀ k : String,
      ((l1.filter (fun t => txnKey t == k)).Perm
        (l2.filter (fun t => txnKey t == k)))
      ∧ (k ∈ (potentialDuplicateGroups l1).map Prod.fst
          ↔ k ∈ (potentialDuplicateGroups l2).map Prod.fst) := by
  intro l1 l2 h k
  refine ⟨h.filter _, ?_⟩
  have h1 : (∃ t ∈ l1, txnKey t = k) ↔ (∃ t ∈ l2, txnKey t = k) := by
    constructor <;> rintro ⟨t, ht, rfl⟩
    · exact ⟨t, h.mem_iff.mp ht, rfl⟩
    · exact ⟨t, h.mem_iff.mpr ht, rfl⟩
  have h2 : (l1.filter (fun t => txnKey t == k)).length
      = (l2.filter (fun t => txnKey t == k)).length :=
    (h.filter _).length_eq
  rw [mem_fst_potentialDuplicateGroups, mem_fst_potentialDuplicateGroups, h1, h2]

/-- Witness for C5's amended theorem on a concrete transposition: the two
−50 records swapped give the same flagged key with a permuted group. -/
theorem duplicate_groups_content_perm_invariant_witness :
    (([dupRecS1, dupRecS2].filter (fun t => txnKey t == txnKey dupRecS1)).Perm
      ([dupRecS2, dupRecS1].filter (fun t => txnKey t == txnKey dupRecS1)))
    ∧ (txnKey dupRecS1 ∈ (potentialDuplicateGroups [dupRecS1, dupRecS2]).map Prod.fst
        ↔ txnKey dupRecS1 ∈ (potentialDuplicateGroups [dupRecS2, dupRecS1]).map Prod.fst) :=
  duplicate_groups_content_perm_invariant [dupRecS1, dupRecS2] [dupRecS2, dupRecS1]
    (List.Perm.swap dupRecS2 dupRecS1 []) (txnKey dupRecS1)

/-- C8: in the correlator's output every inflow is consumed by at most one
pair — the matched inflow positions are pairwise distinct — and every
output pair draws its outflow and inflow from the given lists with the
matching conditions satisfied; unmatched records are simply absent (the
matcher is a total function returning only matched pairs, with no error
outcome). -/
theorem correlator_one_to_one :
    ∀ (outflows inflows : List FlowRecord) (tol : ℤ),
      ((correlate outflows inflows tol).map (fun p => p.2.1)).Nodup
      ∧ (∀ p ∈ correlate outflows inflows tol,
          p.1 ∈ outflows ∧ p.2.2.1 ∈ inflows
            ∧ |p.2.2.1.amount| = |p.1.amount|
            ∧ |p.2.2.1.day - p.1.day| ≤ tol) := by
  intro outflows inflows tol
  refine ⟨(correlateGo_indices inflows tol outflows []).2, ?_⟩
  intro p hp
  have h := correlateGo_sound inflows tol outflows [] p hp
  exact ⟨h.1, h.2.1, h.2.2.1, h.2.2.2.1⟩

/-- Witness for C8 at specification scenario 4: a −120 outflow on day 10
matched to a +120 inflow on day 12 with tolerance 3. -/
theorem correlator_one_to_one_witness :
    FlowRecord.mk "o1" 10 (-120) ∈ [FlowRecord.mk "o1" 10 (-120)]
    ∧ FlowRecord.mk "i1" 12 120 ∈ [FlowRecord.mk "i1" 12 120]
    ∧ |(FlowRecord.mk "i1" 12 120).amount| = |(FlowRecord.mk "o1" 10 (-120)).amount|
    ∧ |(FlowRecord.mk "i1" 12 120).day - (FlowRecord.mk "o1" 10 (-120)).day| ≤ 3 :=
  (correlator_one_to_one [FlowRecord.mk "o1" 10 (-120)]
      [FlowRecord.mk "i1" 12 120] 3).2
    (FlowRecord.mk "o1" 10 (-120), 0, FlowRecord.mk "i1" 12 120, 2)
    (by decide)

end FinApp
